import Mathlib

/-!
# Verification of the LAMDemo gallery-agent core

Shallow embedding of the search-result caching and retrieval layer of the
LAMDemo repository: the paginated search / filter / delete / tag tools of
`src/tools_optimized.py` (over the seed store `SAMPLE_IMAGES` of
`src/tools.py`) and the result-cache methods of `src/agent.py`
(`_cache_search_results`, `_get_cached_images`, `_get_last_search_results`,
`_is_cache_valid`).

Modelling conventions:
* Python machine state (the module-global mutable `SAMPLE_IMAGES` list and
  the agent's `search_cache` dict) is passed explicitly; a mutating method
  becomes a function returning the new state.
* Python `datetime` values are embedded as rational numbers of seconds
  (`ℚ`), so `(a - b).total_seconds()` is `a - b`.
* Python `int` is `Int`; `//` is flooring division, raising
  `ZeroDivisionError` on a zero divisor, so it returns an `Except`.
* Python list slicing `l[a:b]` (step 1) is `pySlice` below, including the
  negative-index and clamping rules.
* `str.lower()` is per-character ASCII lowercasing (all strings in the
  repository are ASCII); `a in b` on strings is contiguous-substring test;
  `x in l` on lists is membership by equality.
-/

/-- Byte-wise lexicographic `≤` on strings as lists of characters, the order
`sort_keys=True` of `json.dumps` sorts dictionary keys by. -/
def strLeb : List Char → List Char → Bool
  | [], _ => true
  | _ :: _, [] => false
  | a :: as, b :: bs =>
    if a < b then true
    else if b < a then false
    else strLeb as bs

/-- Python `needle in hay` for strings: contiguous substring occurrence
(the empty string occurs in every string). -/
def hasSubstr (hay needle : List Char) : Bool :=
  match hay with
  | [] => needle.isEmpty
  | _ :: t => needle.isPrefixOf hay || hasSubstr t needle

/-- Python `str.lower()` (per-character; ASCII as used in this repository). -/
def lowerStr (s : String) : String := String.mk (s.data.map Char.toLower)

/-- Python `needle in hay` on strings. -/
def pyInStr (needle hay : String) : Bool := hasSubstr hay.data needle.data

/-- The exception a Python arithmetic operation can raise in the embedded
code: `ZeroDivisionError` from `//` with a zero divisor. -/
inductive PyError where
  | zeroDivision
  deriving DecidableEq

/-- Python `a // b` on ints: flooring division, raising on `b = 0`. -/
def pyFloorDiv (a b : Int) : Except PyError Int :=
  if b = 0 then .error .zeroDivision else .ok (Int.fdiv a b)

/-- Python list slicing `l[a:b]` with step 1: negative indices count from the
end, and both bounds are clamped to `[0, len l]`. -/
def pySlice {α : Type} (l : List α) (a b : Int) : List α :=
  let n : Int := l.length
  let a' : Int := if a < 0 then max (n + a) 0 else min a n
  let b' : Int := if b < 0 then max (n + b) 0 else min b n
  (l.drop a'.toNat).take (b' - a').toNat

/-- Python truthiness of an `Optional[str]`: `None` and `""` are falsy. -/
def optStrTruthy : Option String → Bool
  | none => false
  | some s => !(s == "")

/-- Python truthiness of an `Optional[List[str]]`: `None` and `[]` are falsy. -/
def optListTruthy : Option (List String) → Bool
  | none => false
  | some l => !l.isEmpty

/-- A `datetime.datetime` literal as written in the seed data
(`src/tools.py`): year, month, day, hour, minute. -/
structure PyDateTime where
  year : Nat
  month : Nat
  day : Nat
  hour : Nat
  minute : Nat
  deriving DecidableEq

/-- `ImageMetadata` (src/types.py lines 10-26). The free-form
`metadata: Dict[str, Any]` field (never read or written by any operation
in the repository) is omitted. -/
structure ImageMetadata where
  id : String
  filename : String
  path : String
  uploaded_at : PyDateTime
  captured_at : Option PyDateTime
  location : Option String
  tags : List String
  relations : List String
  quality : Option String
  width : Option Int
  height : Option Int
  size : Option Int
  deriving DecidableEq

/-- The seed store `SAMPLE_IMAGES` (src/tools.py lines 16-101). -/
def SAMPLE_IMAGES : List ImageMetadata := [
  { id := "img_001", filename := "beach_sunset.jpg", path := "/gallery/beach_sunset.jpg",
    uploaded_at := ⟨2024, 10, 15, 10, 30⟩, captured_at := some ⟨2024, 10, 15, 18, 45⟩,
    location := some "Malibu Beach, California",
    tags := ["beach", "sunset", "landscape", "nature"],
    relations := ["img_002", "img_003"], quality := some "excellent",
    width := some 4000, height := some 3000, size := some 2500000 },
  { id := "img_002", filename := "beach_people.jpg", path := "/gallery/beach_people.jpg",
    uploaded_at := ⟨2024, 10, 15, 10, 32⟩, captured_at := some ⟨2024, 10, 15, 18, 50⟩,
    location := some "Malibu Beach, California",
    tags := ["beach", "people", "group photo"],
    relations := ["img_001", "img_003"], quality := some "good",
    width := some 4000, height := some 3000, size := some 2300000 },
  { id := "img_003", filename := "beach_blurry.jpg", path := "/gallery/beach_blurry.jpg",
    uploaded_at := ⟨2024, 10, 15, 10, 35⟩, captured_at := some ⟨2024, 10, 15, 19, 0⟩,
    location := some "Malibu Beach, California",
    tags := ["beach", "blurry"],
    relations := ["img_001", "img_002"], quality := some "blurry",
    width := some 4000, height := some 3000, size := some 2100000 },
  { id := "img_004", filename := "mountain_hike.jpg", path := "/gallery/mountain_hike.jpg",
    uploaded_at := ⟨2024, 9, 20, 14, 15⟩, captured_at := some ⟨2024, 9, 20, 15, 30⟩,
    location := some "Rocky Mountains, Colorado",
    tags := ["mountain", "hiking", "landscape"],
    relations := ["img_005"], quality := some "excellent",
    width := some 3840, height := some 2160, size := some 1800000 },
  { id := "img_005", filename := "mountain_selfie.jpg", path := "/gallery/mountain_selfie.jpg",
    uploaded_at := ⟨2024, 9, 20, 14, 20⟩, captured_at := some ⟨2024, 9, 20, 15, 45⟩,
    location := some "Rocky Mountains, Colorado",
    tags := ["mountain", "selfie", "people"],
    relations := ["img_004"], quality := some "good",
    width := some 3840, height := some 2160, size := some 1600000 },
  { id := "img_006", filename := "city_lights.jpg", path := "/gallery/city_lights.jpg",
    uploaded_at := ⟨2024, 8, 10, 20, 45⟩, captured_at := some ⟨2024, 8, 10, 22, 30⟩,
    location := some "New York City, New York",
    tags := ["city", "night", "lights", "skyline"],
    relations := [], quality := some "excellent",
    width := some 5120, height := some 3200, size := some 3100000 }]

/-- The reduced view built by `_create_image_summary`
(src/tools_optimized.py lines 20-28). -/
structure ImageSummary where
  id : String
  filename : String
  location : Option String
  tags : List String
  quality : Option String
  deriving DecidableEq

/-- `_create_image_summary(image)` (src/tools_optimized.py lines 20-28). -/
def create_image_summary (image : ImageMetadata) : ImageSummary :=
  { id := image.id, filename := image.filename, location := image.location,
    tags := image.tags.take 5, quality := image.quality }

/-- The per-record match test of `search_images_paginated`
(src/tools_optimized.py lines 65-88). The four conjuncts correspond, in
order, to the `text_match` check and the three `continue` guards
(location, tags, quality); a conjunct is `true` when the record is *not*
skipped by that guard. -/
def imageMatches (query_lower : String) (location : Option String)
    (tags : Option (List String)) (quality : Option String)
    (image : ImageMetadata) : Bool :=
  -- text_match (lines 67-74)
  (pyInStr query_lower (lowerStr image.filename) ||
   image.tags.any (fun tag => pyInStr query_lower (lowerStr tag)) ||
   (match image.location with
    | none => false
    | some il => !(il == "") && pyInStr query_lower (lowerStr il))) &&
  -- `if location and (not image.location or location.lower() not in image.location.lower()): continue` (line 77)
  !(optStrTruthy location &&
    (match image.location with
     | none => true
     | some il => (il == "") ||
         !(pyInStr (lowerStr (location.getD "")) (lowerStr il)))) &&
  -- `if tags and not any(tag in image.tags for tag in tags): continue` (line 81)
  !(optListTruthy tags && !((tags.getD []).any fun tag => image.tags.contains tag)) &&
  -- `if quality and image.quality != quality: continue` (line 85)
  !(optStrTruthy quality && !(image.quality == quality))

/-- The unpaginated match list `results` accumulated by the loop of
`search_images_paginated` (src/tools_optimized.py lines 62-88): appending
each non-skipped record in store order is filtering by `imageMatches`. -/
def searchResults (store : List ImageMetadata) (query : String)
    (location : Option String) (tags : Option (List String))
    (quality : Option String) : List ImageMetadata :=
  let query_lower := lowerStr query
  store.filter (imageMatches query_lower location tags quality)

/-- The `pagination` sub-dict of the value returned by
`search_images_paginated` (src/tools_optimized.py lines 133-138). -/
structure PaginationOut where
  page : Int
  per_page : Int
  total : Nat
  pages : Int
  deriving DecidableEq

/-- The JSON object `search_images_paginated` returns
(src/tools_optimized.py lines 129-139). -/
structure SearchOutput where
  success : Bool
  message : String
  summary : List ImageSummary
  pagination : PaginationOut
  deriving DecidableEq

/-- The `full_data` dict built (but never returned) by
`search_images_paginated` (src/tools_optimized.py lines 112-126). -/
structure SearchFullData where
  total_count : Nat
  page : Int
  per_page : Int
  total_pages : Int
  has_next : Bool
  has_prev : Bool
  images : List ImageMetadata
  query_text : String
  query_location : Option String
  query_tags : Option (List String)
  query_quality : Option String
  deriving DecidableEq

/-- `search_images_paginated` (src/tools_optimized.py lines 36-139),
returning both the local `full_data` dict (first component, lines 112-126)
and the function's value (second component, lines 129-139). The `//` at
line 100 raises `ZeroDivisionError` when the clamped `per_page` is zero. -/
def search_images_paginated_run (store : List ImageMetadata) (query : String)
    (location : Option String) (tags : Option (List String))
    (quality : Option String) (page : Int) (per_page : Int) :
    Except PyError (SearchFullData × SearchOutput) := do
  let per_page := min per_page 10                    -- line 60
  let results := searchResults store query location tags quality
  let total_count := results.length                  -- line 91
  let start_idx := (page - 1) * per_page             -- line 92
  let end_idx := start_idx + per_page                -- line 93
  let paginated_results := pySlice results start_idx end_idx  -- line 94
  let summary_images := paginated_results.map create_image_summary  -- line 97
  let total_pages ← pyFloorDiv ((total_count : Int) + per_page - 1) per_page  -- line 100
  let has_next := decide (page < total_pages)        -- line 101
  let has_prev := decide (page > 1)                  -- line 102
  let summary_message :=
    "Found " ++ toString total_count ++ " total images. Showing " ++
    toString paginated_results.length ++ " results on page " ++
    toString page ++ " of " ++ toString total_pages ++ ". " ++
    (if has_next then "Use page parameter to get more results."
     else "No more results.")                        -- lines 105-109
  let full_data : SearchFullData :=
    { total_count := total_count, page := page, per_page := per_page,
      total_pages := total_pages, has_next := has_next, has_prev := has_prev,
      images := paginated_results, query_text := query,
      query_location := location, query_tags := tags,
      query_quality := quality }                     -- lines 112-126
  pure (full_data,
    { success := true, message := summary_message, summary := summary_images,
      pagination := { page := page, per_page := per_page,
                      total := total_count, pages := total_pages } })

/-- The value `search_images_paginated` actually returns: only the minimal
response (src/tools_optimized.py lines 129-139); `full_data` is a local
that is dropped. -/
def search_images_paginated (store : List ImageMetadata) (query : String)
    (location : Option String) (tags : Option (List String))
    (quality : Option String) (page : Int) (per_page : Int) :
    Except PyError SearchOutput :=
  Prod.snd <$> search_images_paginated_run store query location tags quality page per_page

/-- The rank table `quality_levels` of `filter_low_quality_images`
(src/tools_optimized.py line 156), as a partial map: `quality_levels.get`. -/
def quality_levels (q : String) : Option Nat :=
  if q = "excellent" then some 4
  else if q = "good" then some 3
  else if q = "poor" then some 2
  else if q = "blurry" then some 1
  else none

/-- The per-record removal test of `filter_low_quality_images`
(src/tools_optimized.py line 163):
`image.quality and quality_levels.get(image.quality, 0) <= threshold_level`. -/
def removedCond (threshold_level : Nat) (image : ImageMetadata) : Bool :=
  match image.quality with
  | none => false
  | some q => if q == "" then false
              else decide ((quality_levels q).getD 0 ≤ threshold_level)

/-- The removed/kept accumulation loop of `filter_low_quality_images`
(src/tools_optimized.py lines 159-166). -/
def filterLoop (threshold_level : Nat) (store : List ImageMetadata) :
    List ImageMetadata × List ImageMetadata :=
  store.foldl
    (fun rk image =>
      if removedCond threshold_level image then (rk.1 ++ [image], rk.2)
      else (rk.1, rk.2 ++ [image]))
    ([], [])

/-- The JSON object `filter_low_quality_images` returns
(src/tools_optimized.py lines 176-183). -/
structure FilterOutput where
  success : Bool
  message : String
  removed_count : Nat
  kept_count : Nat
  removed_sample : List ImageSummary
  criteria : String
  deriving DecidableEq

/-- `filter_low_quality_images(threshold)` (src/tools_optimized.py
lines 142-183). -/
def filter_low_quality_images (store : List ImageMetadata)
    (threshold : String) : FilterOutput :=
  let threshold_level := (quality_levels threshold).getD 2   -- line 157
  let rk := filterLoop threshold_level store                 -- lines 159-166
  let removed := rk.1
  let kept := rk.2
  let removed_summary := (removed.take 5).map create_image_summary  -- line 169
  { success := true,
    message := "Quality filter analysis: " ++ toString removed.length ++
      " images below " ++ threshold ++ " quality, " ++ toString kept.length ++
      " images retained. Showing top " ++ toString removed_summary.length ++
      " removed.",                                           -- lines 171-174
    removed_count := removed.length,
    kept_count := kept.length,
    removed_sample := removed_summary,
    criteria := "Quality threshold: " ++ threshold }

/-- The JSON object `delete_images` returns
(src/tools_optimized.py lines 202-207). -/
structure DeleteOutput where
  success : Bool
  message : String
  deleted_count : Nat
  deleted_ids : List String
  deriving DecidableEq

/-- `delete_images(image_ids)` (src/tools_optimized.py lines 186-207). The
function reads the store (`SAMPLE_IMAGES`) and never writes it; the second
component is the store after the call. -/
def delete_images (image_ids : List String) (store : List ImageMetadata) :
    DeleteOutput × List ImageMetadata :=
  let valid_ids := image_ids.filter
    (fun img_id => store.any (fun img => img.id == img_id))   -- line 198
  ({ success := true,
     message := "Successfully deleted " ++ toString valid_ids.length ++ " images.",
     deleted_count := valid_ids.length,
     deleted_ids := valid_ids },
   store)

/-- The inner loop of `tag_images` on one record
(src/tools_optimized.py lines 227-229): append, in order, each tag of
`tags` that is not already present at the time it is examined
(`image.tags` is mutated in place, so an earlier append is seen by a later
membership test). -/
def addTagList (current : List String) (tags : List String) : List String :=
  tags.foldl (fun acc tag => if acc.contains tag then acc else acc ++ [tag]) current

/-- The JSON object `tag_images` returns
(src/tools_optimized.py lines 234-240). -/
structure TagOutput where
  success : Bool
  message : String
  updated_count : Nat
  tags_added : List String
  image_count : Nat
  deriving DecidableEq

/-- `tag_images(image_ids, tags)` (src/tools_optimized.py lines 210-240):
mutates, in place, the tag list of every store record whose id is in
`image_ids`, and counts the records touched. The second component is the
store after the call. -/
def tag_images (image_ids : List String) (tags : List String)
    (store : List ImageMetadata) : TagOutput × List ImageMetadata :=
  let store' := store.map
    (fun image =>
      if image_ids.contains image.id
      then { image with tags := addTagList image.tags tags }
      else image)
  let updated_count := store.countP (fun image => image_ids.contains image.id)
  ({ success := true,
     message := "Successfully added tags to " ++ toString updated_count ++ " images.",
     updated_count := updated_count,
     tags_added := tags,
     image_count := image_ids.length },
   store')

/-- A JSON-serializable Python value as it occurs in a tool-call argument
dict (`tool_input` in `_call_tools_node`, src/agent.py lines 124-154):
the search tool's arguments are strings, ints, string lists, or `None`. -/
inductive ParamVal where
  | str (s : String)
  | int (n : Int)
  | strList (xs : List String)
  | none
  deriving DecidableEq, Inhabited

/-- A tool-argument dict: association list in insertion order (Python
`dict` iteration order), keys unique. -/
abbrev QueryParams : Type := List (String × ParamVal)

/-- Comparison of dict items by key, the order `json.dumps(·, sort_keys=True)`
emits them in. -/
def pairLe (p q : String × ParamVal) : Prop := strLeb p.1.data q.1.data = true

instance : DecidableRel pairLe := fun p q =>
  inferInstanceAs (Decidable (strLeb p.1.data q.1.data = true))

/-- `json.dumps(query_params, sort_keys=True)` (src/agent.py line 230): the
dumped string is determined by, and determines, the key-sorted item list of
the dict, so the cache key is modelled as that sorted list. -/
def cacheKey (query_params : QueryParams) : QueryParams :=
  List.insertionSort pairLe query_params

/-- Python `d.get(k)` (default `None`) on a tool-argument dict. -/
def paramsGet (query_params : QueryParams) (k : String) : ParamVal :=
  (List.lookup k query_params).getD ParamVal.none

/-- A value of the JSON object a tool returns, as reparsed by `json.loads`
in `_call_tools_node` (src/agent.py line 146). Only the shapes produced by
`search_images_paginated` occur: booleans, strings, the summary list, a
full-record list, and the pagination sub-dict. -/
inductive RVal where
  | bool (b : Bool)
  | str (s : String)
  | summaries (xs : List ImageSummary)
  | images (xs : List ImageMetadata)
  | pagination (p : PaginationOut)
  deriving DecidableEq

/-- The reparse of the JSON string `search_images_paginated` returns
(src/tools_optimized.py lines 129-139): keys `success`, `message`,
`summary`, `pagination` — and no `images` key. -/
def searchResultJson (o : SearchOutput) : List (String × RVal) :=
  [("success", .bool o.success),
   ("message", .str o.message),
   ("summary", .summaries o.summary),
   ("pagination", .pagination o.pagination)]

/-- `result_data.get('images', [])` (src/agent.py line 233): the value at
key `'images'` when present and list-shaped, else the default `[]`. -/
def rGetImages (result_data : List (String × RVal)) : List ImageMetadata :=
  match List.lookup "images" result_data with
  | some (.images xs) => xs
  | _ => []

/-- `result_data.get('pagination', {})` (src/agent.py line 245); the empty
default dict is `Option.none`. -/
def rGetPagination (result_data : List (String × RVal)) : Option PaginationOut :=
  match List.lookup "pagination" result_data with
  | some (.pagination p) => some p
  | _ => none

/-- The `filters` sub-dict of a cache entry (src/agent.py lines 237-241). -/
structure CacheFilters where
  location : ParamVal
  tags : ParamVal
  quality : ParamVal
  deriving DecidableEq

/-- One entry of `self.search_cache` (src/agent.py lines 235-246).
Timestamps are rationals (seconds). -/
structure CacheEntry where
  query : ParamVal
  filters : CacheFilters
  full_images : List ImageMetadata
  total_count : Nat
  timestamp : ℚ
  pagination : Option PaginationOut
  deriving DecidableEq

/-- `self.search_cache`: a Python dict keyed by the canonical query key, in
insertion order. -/
abbrev Cache : Type := List (QueryParams × CacheEntry)

/-- Python dict assignment `d[k] = v`: overwrite in place when the key is
present, else append. -/
def dictInsert (c : Cache) (k : QueryParams) (v : CacheEntry) : Cache :=
  match c with
  | [] => [(k, v)]
  | (k', v') :: rest =>
    if k' = k then (k, v) :: rest else (k', v') :: dictInsert rest k v

/-- `GalleryAgent._cache_search_results(query_params, result_data)`
(src/agent.py lines 220-246); `now` is the `datetime.now()` of line 244. -/
def cache_search_results (query_params : QueryParams)
    (result_data : List (String × RVal)) (now : ℚ) (cache : Cache) : Cache :=
  let cache_key := cacheKey query_params                     -- line 230
  let full_images := rGetImages result_data                  -- line 233
  dictInsert cache cache_key
    { query := paramsGet query_params "query",
      filters := { location := paramsGet query_params "location",
                   tags := paramsGet query_params "tags",
                   quality := paramsGet query_params "quality" },
      full_images := full_images,
      total_count := full_images.length,
      timestamp := now,
      pagination := rGetPagination result_data }

/-- `self.cache_ttl_minutes` (src/agent.py line 39). -/
def cache_ttl_minutes : ℚ := 30

/-- `GalleryAgent._is_cache_valid(timestamp)` (src/agent.py lines 293-296):
`(datetime.now() - timestamp).total_seconds() / 60 < self.cache_ttl_minutes`,
with the clock injected as `now`. -/
def is_cache_valid (now timestamp : ℚ) : Bool :=
  decide ((now - timestamp) / 60 < cache_ttl_minutes)

/-- `GalleryAgent._get_cached_images(image_ids)` (src/agent.py
lines 248-269): over the entries in insertion order, skip invalid ones and
append every full image whose `id` is in `image_ids`. -/
def get_cached_images (cache : Cache) (image_ids : List String) (now : ℚ) :
    List ImageMetadata :=
  cache.foldl
    (fun cached_images kv =>
      let entry := kv.2
      if !(is_cache_valid now entry.timestamp) then cached_images
      else cached_images ++
        entry.full_images.filter (fun img => image_ids.contains img.id))
    []

/-- `_get_cached_images` with its post-state: the method only reads
`self.search_cache`, so the cache after the call is the cache before it. -/
def get_cached_images_run (cache : Cache) (image_ids : List String) (now : ℚ) :
    List ImageMetadata × Cache :=
  (get_cached_images cache image_ids now, cache)

/-- `GalleryAgent._get_last_search_results()` (src/agent.py lines 271-291):
`None` on an empty cache; else filter the valid entries and return the
first one of maximal timestamp (Python `max` keeps the first maximum), or
`None` if none is valid. -/
def get_last_search_results (cache : Cache) (now : ℚ) : Option CacheEntry :=
  if cache.isEmpty then none
  else
    let valid_caches := (cache.map Prod.snd).filter
      (fun e => is_cache_valid now e.timestamp)
    if valid_caches.isEmpty then none
    else valid_caches.foldl
      (fun best e =>
        match best with
        | none => some e
        | some b => if b.timestamp < e.timestamp then some e else some b)
      none

/-- A record with id `img_001`, as stored in a cache entry's full record
list (used to exhibit duplicate-id behaviour of `_get_cached_images`). -/
def dupImage : ImageMetadata :=
  { id := "img_001", filename := "beach_sunset.jpg",
    path := "/gallery/beach_sunset.jpg", uploaded_at := ⟨2024, 10, 15, 10, 30⟩,
    captured_at := none, location := none, tags := [], relations := [],
    quality := none, width := none, height := none, size := none }

/-- A fresh (timestamp 0) cache entry holding exactly `dupImage`. -/
def dupEntry (q : String) : CacheEntry :=
  { query := ParamVal.str q,
    filters := { location := ParamVal.none, tags := ParamVal.none,
                 quality := ParamVal.none },
    full_images := [dupImage],
    total_count := 1, timestamp := 0, pagination := none }


/-! ## Helper lemmas -/

theorem contains_iff {l : List String} {a : String} :
    l.contains a = true ↔ a ∈ l := by
  simp

theorem addTagList_cons (current : List String) (tag : String)
    (rest : List String) :
    addTagList current (tag :: rest) =
      addTagList (if current.contains tag then current else current ++ [tag]) rest := rfl

theorem mem_addTagList_left {x : String} {current : List String}
    (tags : List String) (h : x ∈ current) : x ∈ addTagList current tags := by
  induction tags generalizing current with
  | nil => exact h
  | cons tag rest ih =>
    rw [addTagList_cons]
    by_cases hc : current.contains tag = true
    · rw [if_pos hc]; exact ih h
    · rw [if_neg hc]; exact ih (List.mem_append_left _ h)

theorem mem_addTagList_tags {t : String} {tags : List String}
    (current : List String) (h : t ∈ tags) : t ∈ addTagList current tags := by
  induction tags generalizing current with
  | nil => cases h
  | cons tag rest ih =>
    rw [addTagList_cons]
    rcases List.mem_cons.mp h with rfl | hrest
    · by_cases hc : current.contains t = true
      · rw [if_pos hc]; exact mem_addTagList_left rest (contains_iff.mp hc)
      · rw [if_neg hc]
        exact mem_addTagList_left rest (List.mem_append_right _ (List.mem_singleton_self t))
    · by_cases hc : current.contains tag = true
      · rw [if_pos hc]; exact ih _ hrest
      · rw [if_neg hc]; exact ih _ hrest

theorem addTagList_of_all_mem {tags current : List String}
    (h : ∀ t ∈ tags, t ∈ current) : addTagList current tags = current := by
  induction tags with
  | nil => rfl
  | cons tag rest ih =>
    rw [addTagList_cons, if_pos (contains_iff.mpr (h tag (List.mem_cons_self _ _)))]
    exact ih fun t ht => h t (List.mem_cons_of_mem _ ht)

theorem count_addTagList {t : String} {current : List String}
    (tags : List String) (h : t ∈ current) :
    (addTagList current tags).count t = current.count t := by
  induction tags generalizing current with
  | nil => rfl
  | cons tag rest ih =>
    rw [addTagList_cons]
    by_cases hc : current.contains tag = true
    · rw [if_pos hc]; exact ih h
    · rw [if_neg hc]
      have hne : tag ≠ t := fun he => hc (contains_iff.mpr (he ▸ h))
      rw [ih (List.mem_append_left _ h), List.count_append, List.count_singleton']
      simp [hne]

theorem nodup_addTagList {current : List String} (tags : List String)
    (h : current.Nodup) : (addTagList current tags).Nodup := by
  induction tags generalizing current with
  | nil => exact h
  | cons tag rest ih =>
    rw [addTagList_cons]
    by_cases hc : current.contains tag = true
    · rw [if_pos hc]; exact ih h
    · rw [if_neg hc]
      refine ih ?_
      simp only [List.nodup_append, List.nodup_cons, List.not_mem_nil, not_false_iff,
        List.nodup_nil, and_true, true_and]
      exact ⟨h, fun x hx hmem => hc (contains_iff.mpr ((List.mem_singleton.mp hmem) ▸ hx))⟩

/-- C7: `delete_images` reports as deleted exactly the requested ids that
exist in the record store — nonexistent ids are silently dropped, never an
individual error — with `deleted_count` the size of that reported sublist,
`success = true`, and the record store itself left completely unchanged. -/
theorem delete_images_reports_existing_and_preserves_store
    (image_ids : List String) (store : List ImageMetadata) :
    (∀ i, i ∈ (delete_images image_ids store).1.deleted_ids ↔
        i ∈ image_ids ∧ ∃ img ∈ store, img.id = i) ∧
    (delete_images image_ids store).1.deleted_ids =
      image_ids.filter (fun img_id => store.any (fun img => img.id == img_id)) ∧
    (delete_images image_ids store).1.deleted_count =
      (delete_images image_ids store).1.deleted_ids.length ∧
    (delete_images image_ids store).1.success = true ∧
    (delete_images image_ids store).2 = store := by
  refine ⟨fun i => ?_, rfl, rfl, rfl, rfl⟩
  simp only [delete_images, List.mem_filter, List.any_eq_true, beq_iff_eq]

/-- C9: the tag operation is idempotent per tag: re-tagging with the same
tag list changes nothing the second time, a tag already present is never
appended again (its multiplicity is preserved), tagging never introduces
duplicate tags into a duplicate-free tag list, and running `tag_images`
twice with the same arguments leaves the same store as running it once. -/
theorem tag_images_idempotent :
    (∀ current tags : List String,
      addTagList (addTagList current tags) tags = addTagList current tags) ∧
    (∀ (current tags : List String) (t : String), t ∈ current →
      (addTagList current tags).count t = current.count t) ∧
    (∀ current tags : List String, current.Nodup → (addTagList current tags).Nodup) ∧
    (∀ (image_ids tags : List String) (store : List ImageMetadata),
      (tag_images image_ids tags (tag_images image_ids tags store).2).2 =
        (tag_images image_ids tags store).2) := by
  refine ⟨fun current tags => ?_, fun _ tags _ h => count_addTagList tags h,
    fun _ tags h => nodup_addTagList tags h, fun image_ids tags store => ?_⟩
  · exact addTagList_of_all_mem fun t ht => mem_addTagList_tags current ht
  · simp only [tag_images, List.map_map]
    refine List.map_congr_left fun image _ => ?_
    have hi : addTagList (addTagList image.tags tags) tags = addTagList image.tags tags :=
      addTagList_of_all_mem fun t ht => mem_addTagList_tags _ ht
    by_cases hc : image_ids.contains image.id = true
    · simp only [Function.comp_apply, if_pos hc, hi]
    · simp only [Function.comp_apply, if_neg hc]

/-- C9 witness: the idempotence and no-duplicate clauses evaluated at a
concrete record tag list. -/
theorem tag_images_idempotent_witness :
    addTagList (addTagList ["beach"] ["sunset", "beach"]) ["sunset", "beach"] =
      addTagList ["beach"] ["sunset", "beach"] ∧
    (addTagList ["beach"] ["sunset", "beach"]).count "beach" =
      (["beach"] : List String).count "beach" ∧
    (addTagList ["beach"] ["sunset", "beach"]).Nodup :=
  ⟨tag_images_idempotent.1 ["beach"] ["sunset", "beach"],
   tag_images_idempotent.2.1 ["beach"] ["sunset", "beach"] "beach" (by decide),
   tag_images_idempotent.2.2.1 ["beach"] ["sunset", "beach"] (by decide)⟩

theorem filterLoop_foldl (p : ImageMetadata → Bool) :
    ∀ (store : List ImageMetadata) (r k : List ImageMetadata),
    store.foldl
      (fun rk image => if p image then (rk.1 ++ [image], rk.2) else (rk.1, rk.2 ++ [image]))
      (r, k) =
    (r ++ store.filter p, k ++ store.filter (fun i => !(p i))) := by
  intro store
  induction store with
  | nil => intro r k; simp
  | cons image rest ih =>
    intro r k
    by_cases hp : p image = true
    · simp [List.foldl_cons, hp, ih, List.filter_cons]
    · simp [List.foldl_cons, hp, ih, List.filter_cons]

theorem filterLoop_eq (threshold_level : Nat) (store : List ImageMetadata) :
    filterLoop threshold_level store =
      (store.filter (removedCond threshold_level),
       store.filter (fun i => !(removedCond threshold_level i))) := by
  simpa using filterLoop_foldl (removedCond threshold_level) store [] []

/-- C8: for every threshold value the quality filter partitions the record
set — removed and kept are disjoint, together they are exactly the record
set, their lengths add up — and a record carrying a quality from the rank
table lands in `removed` exactly when its rank is at most the threshold's
rank (table: excellent=4, good=3, poor=2, blurry=1); the reported counts
are the partition sizes and the result is a success. -/
theorem filter_low_quality_partitions (threshold : String) (store : List ImageMetadata) :
    (filterLoop ((quality_levels threshold).getD 2) store).1 =
        store.filter (removedCond ((quality_levels threshold).getD 2)) ∧
    (filterLoop ((quality_levels threshold).getD 2) store).2 =
        store.filter (fun i => !(removedCond ((quality_levels threshold).getD 2) i)) ∧
    (∀ img, img ∈ store ↔
        (img ∈ (filterLoop ((quality_levels threshold).getD 2) store).1 ∨
         img ∈ (filterLoop ((quality_levels threshold).getD 2) store).2)) ∧
    (∀ img, ¬(img ∈ (filterLoop ((quality_levels threshold).getD 2) store).1 ∧
              img ∈ (filterLoop ((quality_levels threshold).getD 2) store).2)) ∧
    (filterLoop ((quality_levels threshold).getD 2) store).1.length +
        (filterLoop ((quality_levels threshold).getD 2) store).2.length = store.length ∧
    (∀ img q r rt, img.quality = some q → quality_levels q = some r →
        quality_levels threshold = some rt →
        (img ∈ (filterLoop ((quality_levels threshold).getD 2) store).1 ↔
         (img ∈ store ∧ r ≤ rt))) ∧
    (filter_low_quality_images store threshold).success = true ∧
    (filter_low_quality_images store threshold).removed_count =
        (filterLoop ((quality_levels threshold).getD 2) store).1.length ∧
    (filter_low_quality_images store threshold).kept_count =
        (filterLoop ((quality_levels threshold).getD 2) store).2.length := by
  rw [filterLoop_eq]
  refine ⟨rfl, rfl, fun img => ?_, fun img => ?_, ?_, fun img q r rt hq hr ht => ?_, rfl, ?_, ?_⟩
  · by_cases hp : removedCond ((quality_levels threshold).getD 2) img = true <;>
      simp [List.mem_filter, hp]
  · rintro ⟨h1, h2⟩
    rw [List.mem_filter] at h1 h2
    rw [h1.2] at h2
    exact absurd h2.2 (by simp)
  · have := (List.filter_append_perm (removedCond ((quality_levels threshold).getD 2)) store).length_eq
    simpa [List.length_append] using this
  · have hq' : q ≠ "" := by
      intro he
      rw [he] at hr
      simp [quality_levels] at hr
    have hcond : removedCond ((quality_levels threshold).getD 2) img = decide (r ≤ rt) := by
      simp only [removedCond, hq, ht, Option.getD_some, hr]
      simp [hq']
    rw [List.mem_filter, hcond]
    by_cases hle : r ≤ rt <;> simp [hle]
  · simp [filter_low_quality_images, filterLoop_eq]
  · simp [filter_low_quality_images, filterLoop_eq]

/-- C8 witness: the blurry seed record `img_003` (rank 1) is removed by
threshold `"poor"` (rank 2). -/
theorem filter_low_quality_partitions_witness :
    ({ id := "img_003", filename := "beach_blurry.jpg", path := "/gallery/beach_blurry.jpg",
       uploaded_at := ⟨2024, 10, 15, 10, 35⟩, captured_at := some ⟨2024, 10, 15, 19, 0⟩,
       location := some "Malibu Beach, California",
       tags := ["beach", "blurry"],
       relations := ["img_001", "img_002"], quality := some "blurry",
       width := some 4000, height := some 3000, size := some 2100000 } : ImageMetadata) ∈
      (filterLoop ((quality_levels "poor").getD 2) SAMPLE_IMAGES).1 ↔
    (({ id := "img_003", filename := "beach_blurry.jpg", path := "/gallery/beach_blurry.jpg",
        uploaded_at := ⟨2024, 10, 15, 10, 35⟩, captured_at := some ⟨2024, 10, 15, 19, 0⟩,
        location := some "Malibu Beach, California",
        tags := ["beach", "blurry"],
        relations := ["img_001", "img_002"], quality := some "blurry",
        width := some 4000, height := some 3000, size := some 2100000 } : ImageMetadata) ∈
      SAMPLE_IMAGES ∧ 1 ≤ 2) :=
  (filter_low_quality_partitions "poor" SAMPLE_IMAGES).2.2.2.2.2.1 _ "blurry" 1 2
    rfl (by decide) (by decide)

/-- C10: a threshold string outside the rank table does not fail: the
filter treats it as rank 2 — the rank of `"poor"` — and returns the same
success partition (same removed/kept lists, counts and sample) as
threshold `"poor"`. -/
theorem filter_unknown_threshold_as_poor (threshold : String)
    (store : List ImageMetadata) (h : quality_levels threshold = none) :
    (filter_low_quality_images store threshold).success = true ∧
    filterLoop ((quality_levels threshold).getD 2) store = filterLoop 2 store ∧
    quality_levels "poor" = some 2 ∧
    (filter_low_quality_images store threshold).removed_count =
      (filter_low_quality_images store "poor").removed_count ∧
    (filter_low_quality_images store threshold).kept_count =
      (filter_low_quality_images store "poor").kept_count ∧
    (filter_low_quality_images store threshold).removed_sample =
      (filter_low_quality_images store "poor").removed_sample := by
  have hp : quality_levels "poor" = some 2 := rfl
  refine ⟨rfl, by rw [h]; rfl, rfl, ?_, ?_, ?_⟩ <;>
    simp [filter_low_quality_images, h, hp]

/-- C10 witness: the out-of-enumeration threshold `"garbage"` behaves as
`"poor"` on the seed store. -/
theorem filter_unknown_threshold_as_poor_witness :
    (filter_low_quality_images SAMPLE_IMAGES "garbage").success = true ∧
    filterLoop ((quality_levels "garbage").getD 2) SAMPLE_IMAGES = filterLoop 2 SAMPLE_IMAGES ∧
    quality_levels "poor" = some 2 ∧
    (filter_low_quality_images SAMPLE_IMAGES "garbage").removed_count =
      (filter_low_quality_images SAMPLE_IMAGES "poor").removed_count ∧
    (filter_low_quality_images SAMPLE_IMAGES "garbage").kept_count =
      (filter_low_quality_images SAMPLE_IMAGES "poor").kept_count ∧
    (filter_low_quality_images SAMPLE_IMAGES "garbage").removed_sample =
      (filter_low_quality_images SAMPLE_IMAGES "poor").removed_sample :=
  filter_unknown_threshold_as_poor "garbage" SAMPLE_IMAGES (by decide)

theorem get_cached_images_foldl (ids : List String) (now : ℚ) :
    ∀ (cache : Cache) (acc : List ImageMetadata),
    cache.foldl
      (fun cached_images kv =>
        if !(is_cache_valid now kv.2.timestamp) then cached_images
        else cached_images ++
          kv.2.full_images.filter (fun img => ids.contains img.id))
      acc =
    acc ++ (cache.filter fun kv => is_cache_valid now kv.2.timestamp).flatMap
      (fun kv => kv.2.full_images.filter (fun img => ids.contains img.id)) := by
  intro cache
  induction cache with
  | nil => intro acc; simp
  | cons kv rest ih =>
    intro acc
    simp only [List.foldl_cons]
    by_cases hv : is_cache_valid now kv.2.timestamp = true
    · simp only [hv, Bool.not_true, Bool.false_eq_true, if_false]
      rw [ih, List.filter_cons, if_pos hv, List.flatMap_cons, List.append_assoc]
    · have hv' : is_cache_valid now kv.2.timestamp = false := Bool.eq_false_iff.mpr hv
      simp only [hv', Bool.not_false, if_true]
      rw [ih, List.filter_cons, if_neg (by simp [hv'])]

theorem get_cached_images_eq_flatMap (cache : Cache) (ids : List String) (now : ℚ) :
    get_cached_images cache ids now =
      (cache.filter fun kv => is_cache_valid now kv.2.timestamp).flatMap
        (fun kv => kv.2.full_images.filter (fun img => ids.contains img.id)) := by
  have h := get_cached_images_foldl ids now cache []
  simpa [get_cached_images] using h

theorem map_snd_filter_valid (now : ℚ) (cache : Cache) :
    (cache.filter fun kv => is_cache_valid now kv.2.timestamp).map Prod.snd =
      (cache.map Prod.snd).filter fun e => is_cache_valid now e.timestamp := by
  induction cache with
  | nil => rfl
  | cons kv rest ih =>
    by_cases hv : is_cache_valid now kv.2.timestamp = true <;>
      simp [List.filter_cons, hv, ih]

/-- C5: cache validity is a strict less-than test on the entry's age in
minutes against the 30-minute TTL: an entry with timestamp `T` is valid at
`T + 60·(TTL − ε)` seconds and invalid at `T + 60·(TTL + ε)` for every
`ε > 0`; expired entries are excluded from both retrieval operations
(`_get_cached_images` and `_get_last_search_results` behave as if the
cache held only the valid entries) but are not removed from storage. -/
theorem is_cache_valid_strict_ttl :
    (∀ now timestamp : ℚ, is_cache_valid now timestamp = true ↔
        (now - timestamp) / 60 < cache_ttl_minutes) ∧
    (∀ timestamp ε : ℚ, 0 < ε →
        is_cache_valid (timestamp + 60 * (cache_ttl_minutes - ε)) timestamp = true ∧
        is_cache_valid (timestamp + 60 * (cache_ttl_minutes + ε)) timestamp = false) ∧
    (∀ (cache : Cache) (ids : List String) (now : ℚ),
        get_cached_images cache ids now =
          get_cached_images (cache.filter fun kv => is_cache_valid now kv.2.timestamp) ids now) ∧
    (∀ (cache : Cache) (now : ℚ),
        get_last_search_results cache now =
          get_last_search_results (cache.filter fun kv => is_cache_valid now kv.2.timestamp) now) ∧
    (∀ (cache : Cache) (ids : List String) (now : ℚ),
        (get_cached_images_run cache ids now).2 = cache) := by
  refine ⟨fun now timestamp => by simp [is_cache_valid],
    fun timestamp ε hε => ⟨?_, ?_⟩, fun cache ids now => ?_, fun cache now => ?_,
    fun _ _ _ => rfl⟩
  · simp only [is_cache_valid, decide_eq_true_eq]
    have : (timestamp + 60 * (cache_ttl_minutes - ε) - timestamp) / 60 =
        cache_ttl_minutes - ε := by ring
    rw [this]
    linarith
  · simp only [is_cache_valid, decide_eq_false_iff_not, not_lt]
    have : (timestamp + 60 * (cache_ttl_minutes + ε) - timestamp) / 60 =
        cache_ttl_minutes + ε := by ring
    rw [this]
    linarith
  · rw [get_cached_images_eq_flatMap, get_cached_images_eq_flatMap, List.filter_filter]
    simp
  · unfold get_last_search_results
    have hmap := map_snd_filter_valid now cache
    by_cases hvempty :
        ((cache.map Prod.snd).filter fun e => is_cache_valid now e.timestamp).isEmpty = true
    · have hc' : (cache.filter fun kv => is_cache_valid now kv.2.timestamp).isEmpty = true := by
        have h2 : ((cache.filter fun kv => is_cache_valid now kv.2.timestamp).map
            Prod.snd).isEmpty = true := hmap ▸ hvempty
        simpa [List.isEmpty_iff, List.map_eq_nil_iff] using h2
      by_cases hce : cache.isEmpty = true <;> simp [hce, hc', hvempty]
    · have hc' : (cache.filter fun kv => is_cache_valid now kv.2.timestamp).isEmpty = false := by
        rw [Bool.eq_false_iff]
        intro hemp
        have h2 : ((cache.filter fun kv => is_cache_valid now kv.2.timestamp).map
            Prod.snd).isEmpty = true := by
          rw [List.isEmpty_iff] at hemp ⊢
          simp [hemp]
        rw [hmap] at h2
        exact absurd h2 (by simp [hvempty])
      have hce : cache.isEmpty = false := by
        rw [Bool.eq_false_iff]
        intro hemp
        rw [List.isEmpty_iff] at hemp
        subst hemp
        simp at hc'
      rw [hce, hc']
      simp only [Bool.false_eq_true, if_false]
      rw [hmap, List.filter_filter]
      simp [hvempty]

/-- C5 witness: with TTL 30 minutes, an entry stamped 0 is still valid
29 minutes later and no longer valid 31 minutes later. -/
theorem is_cache_valid_strict_ttl_witness :
    is_cache_valid (0 + 60 * (cache_ttl_minutes - 1)) 0 = true ∧
    is_cache_valid (0 + 60 * (cache_ttl_minutes + 1)) 0 = false :=
  is_cache_valid_strict_ttl.2.1 0 1 one_pos

/-- C6 (amended): `_get_cached_images` scans all valid entries' full record
lists, in cache order, and returns every stored occurrence whose id is in
the id set — one occurrence per valid entry that contains it, duplicates
not collapsed; a record is in the result exactly when some valid entry
holds it and its id is requested. -/
theorem get_cached_images_scans_valid_occurrences :
    (∀ (cache : Cache) (ids : List String) (now : ℚ),
      get_cached_images cache ids now =
        (cache.filter fun kv => is_cache_valid now kv.2.timestamp).flatMap
          (fun kv => kv.2.full_images.filter (fun img => ids.contains img.id))) ∧
    (∀ (cache : Cache) (ids : List String) (now : ℚ) (img : ImageMetadata),
      img ∈ get_cached_images cache ids now ↔
        ∃ kv ∈ cache, is_cache_valid now kv.2.timestamp = true ∧
          img ∈ kv.2.full_images ∧ img.id ∈ ids) := by
  refine ⟨get_cached_images_eq_flatMap, fun cache ids now img => ?_⟩
  rw [get_cached_images_eq_flatMap]
  simp only [List.mem_flatMap, List.mem_filter]
  constructor
  · rintro ⟨kv, ⟨hkv, hval⟩, himg, hid⟩
    exact ⟨kv, hkv, hval, himg, by simpa using hid⟩
  · rintro ⟨kv, hkv, hval, himg, hid⟩
    exact ⟨kv, ⟨hkv, hval⟩, himg, by simpa using hid⟩

/-- C6 counterexample: two valid cache entries both hold the record with id
`img_001`; `_get_cached_images(["img_001"])` at time 0 returns that record
twice — duplicates are not collapsed, contradicting the claim. -/
theorem get_cached_images_duplicate_counterexample :
    get_cached_images
      [([("query", ParamVal.str "beach")], dupEntry "beach"),
       ([("query", ParamVal.str "malibu")], dupEntry "malibu")]
      ["img_001"] 0 = [dupImage, dupImage] := by
  have hv : is_cache_valid 0 0 = true := by
    simp only [is_cache_valid, cache_ttl_minutes]
    norm_num
  rw [get_cached_images_eq_flatMap]
  simp [List.filter_cons, dupEntry, hv, dupImage]

theorem strLeb_total : ∀ a b, strLeb a b = true ∨ strLeb b a = true := by
  intro a
  induction a with
  | nil => intro b; left; rfl
  | cons x xs ih =>
    intro b
    cases b with
    | nil => right; rfl
    | cons y ys =>
      simp only [strLeb]
      rcases lt_trichotomy x y with h | h | h
      · left; simp [h]
      · subst h
        rcases ih ys with h' | h' <;> [left; right] <;> simp [h', lt_irrefl]
      · right; simp [h, lt_asymm h]

theorem strLeb_antisymm : ∀ a b, strLeb a b = true → strLeb b a = true → a = b := by
  intro a
  induction a with
  | nil =>
    intro b _ hba
    cases b with
    | nil => rfl
    | cons y ys => simp [strLeb] at hba
  | cons x xs ih =>
    intro b hab hba
    cases b with
    | nil => simp [strLeb] at hab
    | cons y ys =>
      simp only [strLeb] at hab hba
      rcases lt_trichotomy x y with h | h | h
      · simp [h, lt_asymm h] at hba
      · subst h
        simp only [lt_irrefl, if_false] at hab hba
        rw [ih ys hab hba]
      · simp [h, lt_asymm h] at hab

theorem strLeb_trans : ∀ a b c, strLeb a b = true → strLeb b c = true → strLeb a c = true := by
  intro a
  induction a with
  | nil => intro b c _ _; rfl
  | cons x xs ih =>
    intro b c hab hbc
    cases b with
    | nil => simp [strLeb] at hab
    | cons y ys =>
      cases c with
      | nil => simp [strLeb] at hbc
      | cons z zs =>
        simp only [strLeb] at hab hbc ⊢
        rcases lt_trichotomy x y with h1 | h1 | h1
        · rcases lt_trichotomy y z with h2 | h2 | h2
          · simp [lt_trans h1 h2]
          · subst h2; simp [h1]
          · simp [h2, lt_asymm h2] at hbc
        · subst h1
          rcases lt_trichotomy x z with h2 | h2 | h2
          · simp [h2]
          · subst h2
            simp only [lt_irrefl, if_false] at hab hbc ⊢
            exact ih ys zs hab hbc
          · simp [h2, lt_asymm h2] at hbc
        · simp [h1, lt_asymm h1] at hab

theorem string_data_inj {s t : String} (h : s.data = t.data) : s = t :=
  congrArg String.mk h

/-- Two key-sorted dict item lists that are permutations of each other with
pairwise-distinct keys are equal. -/
theorem cacheKey_of_perm (p₁ p₂ : QueryParams) (hperm : p₁.Perm p₂)
    (hnd : (p₁.map Prod.fst).Nodup) : cacheKey p₁ = cacheKey p₂ := by
  haveI : IsTotal (String × ParamVal) pairLe := ⟨fun a b => strLeb_total a.1.data b.1.data⟩
  haveI : IsTrans (String × ParamVal) pairLe :=
    ⟨fun a b c => strLeb_trans a.1.data b.1.data c.1.data⟩
  have hp1 : (cacheKey p₁).Perm p₁ := List.perm_insertionSort pairLe p₁
  have hp2 : (cacheKey p₂).Perm p₂ := List.perm_insertionSort pairLe p₂
  have hs : (cacheKey p₁).Perm (cacheKey p₂) := hp1.trans (hperm.trans hp2.symm)
  have hsort₁ : (cacheKey p₁).Sorted pairLe := List.sorted_insertionSort pairLe p₁
  have hsort₂ : (cacheKey p₂).Sorted pairLe := List.sorted_insertionSort pairLe p₂
  have hnd₁ : ((cacheKey p₁).map Prod.fst).Nodup := ((hp1.map Prod.fst).nodup_iff).mpr hnd
  have hnd₂ : ((cacheKey p₂).map Prod.fst).Nodup :=
    ((hs.map Prod.fst).nodup_iff).mp hnd₁
  haveI : IsAntisymm (String × ParamVal) (fun a b => pairLe a b ∧ a.1 ≠ b.1) :=
    ⟨fun a b hab hba =>
      absurd (string_data_inj (strLeb_antisymm a.1.data b.1.data hab.1 hba.1)) hab.2⟩
  refine List.eq_of_perm_of_sorted (r := fun a b => pairLe a b ∧ a.1 ≠ b.1) hs ?_ ?_
  · exact hsort₁.and ((List.pairwise_map).mp hnd₁)
  · exact hsort₂.and ((List.pairwise_map).mp hnd₂)

/-- One Python-dict key-insertion step on a list of keys. -/
theorem dictInsert_keys (c : Cache) (k : QueryParams) (v : CacheEntry) :
    (dictInsert c k v).map Prod.fst =
      if k ∈ c.map Prod.fst then c.map Prod.fst else c.map Prod.fst ++ [k] := by
  induction c with
  | nil => simp [dictInsert]
  | cons kv rest ih =>
    by_cases hk : kv.1 = k
    · simp [dictInsert, hk]
    · simp only [dictInsert, if_neg hk, List.map_cons, ih, List.mem_cons]
      by_cases hmem : k ∈ rest.map Prod.fst
      · simp [hmem, Ne.symm hk]
      · simp [hmem, Ne.symm hk]

theorem foldl_insKey_card (l : List QueryParams) :
    ∀ ks : List QueryParams, ks.Nodup →
      (l.foldl (fun ks k => if k ∈ ks then ks else ks ++ [k]) ks).length =
          (ks.toFinset ∪ l.toFinset).card ∧
        (l.foldl (fun ks k => if k ∈ ks then ks else ks ++ [k]) ks).Nodup := by
  induction l with
  | nil =>
    intro ks h
    refine ⟨?_, h⟩
    simp [List.toFinset_card_of_nodup h]
  | cons k rest ih =>
    intro ks h
    simp only [List.foldl_cons]
    by_cases hmem : k ∈ ks
    · rw [if_pos hmem]
      rcases ih ks h with ⟨h1, h2⟩
      refine ⟨?_, h2⟩
      rw [h1]
      congr 1
      rw [List.toFinset_cons, Finset.union_insert,
        Finset.insert_eq_self.mpr (Finset.mem_union_left _ (List.mem_toFinset.mpr hmem))]
    · rw [if_neg hmem]
      have hnd' : (ks ++ [k]).Nodup := by
        simp only [List.nodup_append, List.nodup_cons, List.not_mem_nil, not_false_iff,
          List.nodup_nil, and_true, true_and]
        exact ⟨h, fun x hx hk => hmem ((List.mem_singleton.mp hk) ▸ hx)⟩
      rcases ih (ks ++ [k]) hnd' with ⟨h1, h2⟩
      refine ⟨?_, h2⟩
      rw [h1]
      congr 1
      ext x
      simp only [List.toFinset_append, List.toFinset_cons, List.toFinset_nil,
        Finset.mem_union, Finset.mem_insert, Finset.mem_singleton,
        Finset.not_mem_empty, or_false, List.mem_toFinset]
      tauto

theorem fold_cache_keys (searches : List (QueryParams × (List (String × RVal)) × ℚ)) :
    ∀ c : Cache,
      (searches.foldl (fun c s => cache_search_results s.1 s.2.1 s.2.2 c) c).map Prod.fst =
        (searches.map fun s => cacheKey s.1).foldl
          (fun ks k => if k ∈ ks then ks else ks ++ [k]) (c.map Prod.fst) := by
  induction searches with
  | nil => intro c; rfl
  | cons s rest ih =>
    intro c
    simp only [List.foldl_cons, List.map_cons]
    rw [ih, cache_search_results, dictInsert_keys]

/-- C2: the result cache holds at most one entry per canonical query key.
Two parameter dicts with the same items in different order canonicalize to
the same cache key, and after any sequence of `_cache_search_results`
calls starting from the empty cache, the number of entries equals the
number of distinct canonical keys searched (a repeated key overwrites
instead of duplicating). -/
theorem cache_one_entry_per_canonical_key :
    (∀ p₁ p₂ : QueryParams, p₁.Perm p₂ → (p₁.map Prod.fst).Nodup →
      cacheKey p₁ = cacheKey p₂) ∧
    (∀ searches : List (QueryParams × (List (String × RVal)) × ℚ),
      (searches.foldl (fun c s => cache_search_results s.1 s.2.1 s.2.2 c) []).length =
        (searches.map fun s => cacheKey s.1).toFinset.card) := by
  refine ⟨cacheKey_of_perm, fun searches => ?_⟩
  have hlen : (searches.foldl (fun c s => cache_search_results s.1 s.2.1 s.2.2 c) []).length =
      ((searches.foldl (fun c s => cache_search_results s.1 s.2.1 s.2.2 c) []).map
        Prod.fst).length := by
    rw [List.length_map]
  rw [hlen, fold_cache_keys]
  have h := (foldl_insKey_card (searches.map fun s => cacheKey s.1) [] List.nodup_nil).1
  simpa using h

/-- C2 witness: the same three search arguments supplied in two different
orders produce one and the same canonical cache key. -/
theorem cache_one_entry_per_canonical_key_witness :
    cacheKey [("query", ParamVal.str "beach"), ("page", ParamVal.int 1),
              ("per_page", ParamVal.int 2)] =
      cacheKey [("per_page", ParamVal.int 2), ("page", ParamVal.int 1),
                ("query", ParamVal.str "beach")] :=
  cache_one_entry_per_canonical_key.1 _ _ (by decide) (by decide)

/-- C1: the cache-population invariant fails on the code. For the search
`query="beach", page=1, per_page=2` over the seed store the unpaginated
match count is 3, but the JSON the tool returns carries no `images` key
(the `full_data` dict that holds them is built and dropped), so
`_cache_search_results` stores `result_data.get('images', []) = []`: the
cache entry has `full_images = []` (length 0, `total_count` 0), not the
full match list of length 3 the claim requires. -/
theorem cache_entry_full_images_is_empty :
    (searchResults SAMPLE_IMAGES "beach" none none none).length = 3 ∧
    ((search_images_paginated SAMPLE_IMAGES "beach" none none none 1 2).toOption.map
      (fun o =>
        (cache_search_results
          [("query", ParamVal.str "beach"), ("page", ParamVal.int 1),
           ("per_page", ParamVal.int 2)]
          (searchResultJson o) 0 []).map
          (fun kv => (kv.2.full_images.length, kv.2.total_count)))) =
      some [(0, 0)] := by
  constructor
  · decide
  · decide

/-- C3 counterexample: the paginated search is not total — with
`per_page = 0` the clamp `min(per_page, 10)` leaves 0 and the
total-page computation `(total + per_page - 1) // per_page` raises
`ZeroDivisionError` instead of returning any `success=false` result. -/
theorem search_per_page_zero_raises :
    search_images_paginated SAMPLE_IMAGES "beach" none none none 1 0 =
      Except.error PyError.zeroDivision := rfl

theorem pySlice_length_le_length {α : Type} (l : List α) (a b : Int) :
    (pySlice l a b).length ≤ l.length := by
  simp only [pySlice, List.length_take, List.length_drop]
  omega

theorem pySlice_length_le_span {α : Type} (l : List α) (a pp : Int) (h : 0 ≤ pp) :
    ((pySlice l a (a + pp)).length : Int) ≤ pp := by
  simp only [pySlice, List.length_take, List.length_drop]
  split_ifs with h1 h2 h2 <;> omega

/-- C3 (amended): for every query and page, and every `per_page ≠ 0`, the
paginated search returns a `success=true` result without raising; the
page slice never exceeds 10 records, and for `per_page ≥ 1` it never
exceeds the clamped page size `min(per_page, 10)`. (With `per_page = 0`
the operation raises `ZeroDivisionError`, the sole failure.) -/
theorem search_images_paginated_total_of_per_page_ne_zero
    (query : String) (location : Option String) (tags : Option (List String))
    (quality : Option String) (page per_page : Int) (h : per_page ≠ 0) :
    ∃ out, search_images_paginated SAMPLE_IMAGES query location tags quality page per_page =
        Except.ok out ∧
      out.success = true ∧
      out.summary.length ≤ 10 ∧
      (1 ≤ per_page → (out.summary.length : Int) ≤ min per_page 10) := by
  have hpp : min per_page 10 ≠ 0 := by
    rcases lt_trichotomy per_page 0 with hl | hl | hl
    · have hmin : min per_page 10 = per_page := min_eq_left (by omega)
      omega
    · exact absurd hl h
    · have h10 : (0 : Int) < min per_page 10 := lt_min hl (by norm_num)
      omega
  simp only [search_images_paginated, search_images_paginated_run, pyFloorDiv]
  rw [if_neg hpp]
  refine ⟨_, rfl, rfl, ?_, ?_⟩
  · rw [List.length_map]
    have hres : (searchResults SAMPLE_IMAGES query location tags quality).length ≤
        SAMPLE_IMAGES.length := by
      simp only [searchResults]
      exact List.length_filter_le _ _
    have hlen : SAMPLE_IMAGES.length ≤ 10 := by decide
    exact le_trans (pySlice_length_le_length _ _ _) (le_trans hres hlen)
  · intro h1
    rw [List.length_map]
    exact pySlice_length_le_span _ _ _ (by omega)

/-- C3 witness: the amended totality statement evaluated at the spec's
scenario `query="beach", page=1, per_page=2`. -/
theorem search_images_paginated_total_witness :
    ∃ out, search_images_paginated SAMPLE_IMAGES "beach" none none none 1 2 =
        Except.ok out ∧
      out.success = true ∧
      out.summary.length ≤ 10 ∧
      (1 ≤ (2 : Int) → (out.summary.length : Int) ≤ min 2 10) :=
  search_images_paginated_total_of_per_page_ne_zero "beach" none none none 1 2 (by norm_num)

theorem pySlice_nonneg_eq {α : Type} (l : List α) (a b : Int) (ha : 0 ≤ a) (hb : 0 ≤ b) :
    pySlice l a b = (l.drop a.toNat).take (b.toNat - a.toNat) := by
  simp only [pySlice]
  rw [if_neg (not_lt.mpr ha), if_neg (not_lt.mpr hb)]
  by_cases han : a ≤ (l.length : Int)
  · rw [min_eq_left han]
    by_cases hbn : b ≤ (l.length : Int)
    · rw [min_eq_left hbn]
      congr 1
      omega
    · rw [min_eq_right (le_of_not_le hbn)]
      have h1 : (l.drop a.toNat).length ≤ ((l.length : Int) - a).toNat := by
        rw [List.length_drop]; omega
      have h2 : (l.drop a.toNat).length ≤ b.toNat - a.toNat := by
        rw [List.length_drop]; omega
      rw [List.take_of_length_le h1, List.take_of_length_le h2]
  · rw [min_eq_right (le_of_not_le han)]
    rw [List.drop_eq_nil_of_le (by omega : l.length ≤ ((l.length : Int)).toNat),
      List.drop_eq_nil_of_le (by omega : l.length ≤ a.toNat)]
    simp

theorem pySlice_start_beyond {α : Type} (l : List α) (a b : Int)
    (ha : (l.length : Int) ≤ a) : pySlice l a b = [] := by
  simp only [pySlice]
  rw [if_neg (not_lt.mpr ((Int.natCast_nonneg l.length).trans ha)), min_eq_right ha,
    Int.toNat_natCast, List.drop_length, List.take_nil]

theorem range_flatMap_take_drop {α : Type} (P : Nat) :
    ∀ (n : Nat) (l : List α), l.length ≤ n * P →
      (List.range n).flatMap (fun i => (l.drop (i * P)).take P) = l := by
  intro n
  induction n with
  | zero =>
    intro l h
    simp only [Nat.zero_mul, Nat.le_zero] at h
    rw [List.eq_nil_of_length_eq_zero h]
    rfl
  | succ n ih =>
    intro l h
    rw [List.range_succ_eq_map, List.flatMap_cons, List.flatMap_map]
    simp only [Nat.zero_mul, List.drop_zero]
    have hdd : ∀ i : Nat, l.drop (Nat.succ i * P) = (l.drop P).drop (i * P) := by
      intro i
      rw [List.drop_drop]
      congr 1
      rw [Nat.succ_mul]
      omega
    simp only [hdd]
    have hlen : (l.drop P).length ≤ n * P := by
      rw [List.length_drop]
      rw [Nat.succ_mul] at h
      omega
    rw [ih (l.drop P) hlen, List.take_append_drop]

/-- C4: pagination correctness of the paginated search with effective page
size `P = min(per_page, 10)` over the match set of size `N`: the reported
`total_pages` is `⌈N/P⌉ = (N + P - 1) / P` (characterized by
`N ≤ P·total_pages < N + P`), `has_next` holds exactly when
`page < total_pages`, `has_prev` exactly when `page > 1`, the page slices
for pages `1..total_pages` concatenate, in order, to exactly the full
match set, and a page beyond the last yields an empty page with
`success = true`, never an error. -/
theorem search_pagination_correct (query : String) (location : Option String)
    (tags : Option (List String)) (quality : Option String) (per_page : Int)
    (h : 1 ≤ per_page) :
    ((searchResults SAMPLE_IMAGES query location tags quality).length ≤
        (min per_page 10).toNat *
          (((searchResults SAMPLE_IMAGES query location tags quality).length +
              (min per_page 10).toNat - 1) / (min per_page 10).toNat) ∧
      (min per_page 10).toNat *
          (((searchResults SAMPLE_IMAGES query location tags quality).length +
              (min per_page 10).toNat - 1) / (min per_page 10).toNat) <
        (searchResults SAMPLE_IMAGES query location tags quality).length +
          (min per_page 10).toNat) ∧
    (∀ page : Int, ∃ fd out,
      search_images_paginated_run SAMPLE_IMAGES query location tags quality page per_page =
          Except.ok (fd, out) ∧
        out.success = true ∧
        out.pagination.total =
          (searchResults SAMPLE_IMAGES query location tags quality).length ∧
        out.pagination.pages =
          ((((searchResults SAMPLE_IMAGES query location tags quality).length +
              (min per_page 10).toNat - 1) / (min per_page 10).toNat : Nat) : Int) ∧
        fd.has_next = decide (page < out.pagination.pages) ∧
        fd.has_prev = decide (page > 1) ∧
        fd.images = pySlice (searchResults SAMPLE_IMAGES query location tags quality)
          ((page - 1) * min per_page 10) ((page - 1) * min per_page 10 + min per_page 10) ∧
        out.summary = fd.images.map create_image_summary) ∧
    ((List.range (((searchResults SAMPLE_IMAGES query location tags quality).length +
          (min per_page 10).toNat - 1) / (min per_page 10).toNat)).flatMap
        (fun i => pySlice (searchResults SAMPLE_IMAGES query location tags quality)
          ((i : Int) * min per_page 10) ((i : Int) * min per_page 10 + min per_page 10)) =
      searchResults SAMPLE_IMAGES query location tags quality) ∧
    (∀ page : Int,
      (((((searchResults SAMPLE_IMAGES query location tags quality).length +
          (min per_page 10).toNat - 1) / (min per_page 10).toNat : Nat) : Int)) < page →
      ∃ fd out,
        search_images_paginated_run SAMPLE_IMAGES query location tags quality page per_page =
            Except.ok (fd, out) ∧
          fd.images = [] ∧ out.summary = [] ∧ out.success = true) := by
  set R := searchResults SAMPLE_IMAGES query location tags quality with hR
  set P := min per_page 10 with hPdef
  have hP1 : (1 : Int) ≤ P := le_min h (by norm_num)
  set pt := P.toNat with hptdef
  have hpt1 : 1 ≤ pt := by omega
  have hptc : (pt : Int) = P := Int.toNat_of_nonneg (by omega)
  set N := R.length with hN
  set tp := (N + pt - 1) / pt with htp
  have hdm := Nat.div_add_mod (N + pt - 1) pt
  rw [← htp] at hdm
  have hmod : (N + pt - 1) % pt < pt := Nat.mod_lt _ (by omega)
  have hceil1 : N ≤ pt * tp := by omega
  have hceil2 : pt * tp < N + pt := by omega
  have hppne : P ≠ 0 := by omega
  have hA : Int.fdiv ((N : Int) + P - 1) P = (tp : Int) := by
    rw [← hptc]
    have hcast : ((N : Int) + (pt : Int) - 1) = ((N + pt - 1 : Nat) : Int) := by omega
    rw [hcast, ← Int.ofNat_fdiv, htp]
  refine ⟨⟨hceil1, hceil2⟩, fun page => ?_, ?_, fun page hpage => ?_⟩
  · simp only [search_images_paginated_run, pyFloorDiv, ← hR, ← hPdef]
    rw [if_neg hppne]
    exact ⟨_, _, rfl, rfl, rfl, hA, rfl, rfl, rfl, rfl⟩
  · have hslice : ∀ i : Nat, pySlice R ((i : Int) * P) ((i : Int) * P + P) =
        (R.drop (i * pt)).take pt := by
      intro i
      have ha0 : (0 : Int) ≤ (i : Int) * P := mul_nonneg (Int.natCast_nonneg i) (by omega)
      have hb0 : (0 : Int) ≤ (i : Int) * P + P := by omega
      rw [pySlice_nonneg_eq R _ _ ha0 hb0]
      have ha' : ((i : Int) * P).toNat = i * pt := by
        rw [← hptc, ← Int.natCast_mul, Int.toNat_natCast]
      have hb' : ((i : Int) * P + P).toNat - ((i : Int) * P).toNat = pt := by
        rw [← hptc, ← Int.natCast_mul, ← Int.natCast_add, Int.toNat_natCast,
          Int.toNat_natCast]
        omega
      rw [hb', ha']
    simp only [hslice]
    exact range_flatMap_take_drop pt tp R ((Nat.mul_comm pt tp) ▸ hceil1)
  · simp only [search_images_paginated_run, pyFloorDiv, ← hR, ← hPdef]
    rw [if_neg hppne]
    have hempty : pySlice R ((page - 1) * P) ((page - 1) * P + P) = [] := by
      apply pySlice_start_beyond
      have h1 : (tp : Int) * P ≤ (page - 1) * P :=
        mul_le_mul_of_nonneg_right (by omega) (by omega)
      have h2 : (N : Int) ≤ (tp : Int) * P := by
        rw [← hptc, ← Int.natCast_mul]
        exact_mod_cast (Nat.mul_comm pt tp) ▸ hceil1
      exact le_trans h2 h1
    refine ⟨_, _, rfl, hempty, ?_, rfl⟩
    show List.map create_image_summary
      (pySlice R ((page - 1) * P) ((page - 1) * P + P)) = []
    rw [hempty]
    rfl

/-- C4 witness: for the spec's scenario (`query="beach"`, `per_page=2`,
3 matches, 2 pages) the page slices concatenate to the full match set. -/
theorem search_pagination_correct_witness :
    (List.range (((searchResults SAMPLE_IMAGES "beach" none none none).length +
        (min (2 : Int) 10).toNat - 1) / (min (2 : Int) 10).toNat)).flatMap
      (fun i => pySlice (searchResults SAMPLE_IMAGES "beach" none none none)
        ((i : Int) * min (2 : Int) 10) ((i : Int) * min (2 : Int) 10 + min (2 : Int) 10)) =
      searchResults SAMPLE_IMAGES "beach" none none none :=
  (search_pagination_correct "beach" none none none 2 (by norm_num)).2.2.1
